import Mathlib

/-!
Verification of the fcitx5 front-end-processor (FEP) core: the key mapper,
the preedit/commit session model, the terminal renderer, and the
event-dispatch loop, shallowly embedded from the Rust sources
(`src/event_loop.rs`, `src/state.rs`, `src/terminal.rs`, `src/error.rs`).
Machine integers (`u32`, `i32`, `usize`) are modelled as `Nat`/`Int`; all
values involved are far below any overflow boundary.
-/

namespace Fep

/-- Error type from `src/error.rs` (`FepError`). The payloads of `Io` and
`Zbus` are abstracted here and modelled as strings. -/
inductive FepError where
  | Io (msg : String)
  | TerminalSetup (msg : String)
  | FcitxConnection (msg : String)
  | Zbus (msg : String)
  deriving DecidableEq

/-- Modifier flags of a crossterm `KeyEvent` (external interface type).
The event loop only inspects `shift`, `control` and `alt`. -/
structure KeyModifiers where
  shift : Bool
  control : Bool
  alt : Bool
  superKey : Bool
  hyperKey : Bool
  metaKey : Bool
  deriving DecidableEq

/-- Alias for the Unicode scalar type, usable inside `KeyCode` where the
constructor name `Char` shadows it. -/
abbrev Character := Char

/-- Key codes of a crossterm `KeyEvent` (external interface type).
`Media` and `Modifier` sub-codes are abstracted to a `Nat` tag since the
program never distinguishes them. -/
inductive KeyCode where
  | Backspace
  | Enter
  | Left
  | Right
  | Up
  | Down
  | Home
  | End
  | PageUp
  | PageDown
  | Tab
  | BackTab
  | Delete
  | Insert
  | F (n : Nat)
  | Char (c : Character)
  | Null
  | Esc
  | CapsLock
  | ScrollLock
  | NumLock
  | PrintScreen
  | Pause
  | Menu
  | KeypadBegin
  | Media (m : Nat)
  | Modifier (m : Nat)
  deriving DecidableEq

/-- A crossterm key event: a code plus modifier flags. -/
structure KeyEvent where
  code : KeyCode
  modifiers : KeyModifiers
  deriving DecidableEq

namespace keysyms

/-- X11 keysym constants from the `keysyms` module of `src/event_loop.rs`. -/
def XK_BackSpace : Nat := 0xff08

def XK_Tab : Nat := 0xff09

def XK_Return : Nat := 0xff0d

def XK_Escape : Nat := 0xff1b

def XK_Left : Nat := 0xff51

def XK_Up : Nat := 0xff52

def XK_Right : Nat := 0xff53

def XK_Down : Nat := 0xff54

def XK_Delete : Nat := 0xffff

def XK_space : Nat := 0x0020

def XK_exclam : Nat := 0x0021

def XK_quotedbl : Nat := 0x0022

def XK_numbersign : Nat := 0x0023

def XK_dollar : Nat := 0x0024

def XK_percent : Nat := 0x0025

def XK_ampersand : Nat := 0x0026

def XK_apostrophe : Nat := 0x0027

def XK_parenleft : Nat := 0x0028

def XK_parenright : Nat := 0x0029

def XK_asterisk : Nat := 0x002a

def XK_plus : Nat := 0x002b

def XK_comma : Nat := 0x002c

def XK_minus : Nat := 0x002d

def XK_period : Nat := 0x002e

def XK_slash : Nat := 0x002f

def XK_0 : Nat := 0x0030

def XK_1 : Nat := 0x0031

def XK_2 : Nat := 0x0032

def XK_3 : Nat := 0x0033

def XK_4 : Nat := 0x0034

def XK_5 : Nat := 0x0035

def XK_6 : Nat := 0x0036

def XK_7 : Nat := 0x0037

def XK_8 : Nat := 0x0038

def XK_9 : Nat := 0x0039

def XK_colon : Nat := 0x003a

def XK_semicolon : Nat := 0x003b

def XK_less : Nat := 0x003c

def XK_equal : Nat := 0x003d

def XK_greater : Nat := 0x003e

def XK_question : Nat := 0x003f

def XK_at : Nat := 0x0040

def XK_A : Nat := 0x0041

def XK_B : Nat := 0x0042

def XK_C : Nat := 0x0043

def XK_D : Nat := 0x0044

def XK_E : Nat := 0x0045

def XK_F : Nat := 0x0046

def XK_G : Nat := 0x0047

def XK_H : Nat := 0x0048

def XK_I : Nat := 0x0049

def XK_J : Nat := 0x004a

def XK_K : Nat := 0x004b

def XK_L : Nat := 0x004c

def XK_M : Nat := 0x004d

def XK_N : Nat := 0x004e

def XK_O : Nat := 0x004f

def XK_P : Nat := 0x0050

def XK_Q : Nat := 0x0051

def XK_R : Nat := 0x0052

def XK_S : Nat := 0x0053

def XK_T : Nat := 0x0054

def XK_U : Nat := 0x0055

def XK_V : Nat := 0x0056

def XK_W : Nat := 0x0057

def XK_X : Nat := 0x0058

def XK_Y : Nat := 0x0059

def XK_Z : Nat := 0x005a

def XK_bracketleft : Nat := 0x005b

def XK_backslash : Nat := 0x005c

def XK_bracketright : Nat := 0x005d

def XK_asciicircum : Nat := 0x005e

def XK_underscore : Nat := 0x005f

def XK_grave : Nat := 0x0060

def XK_a : Nat := 0x0061

def XK_b : Nat := 0x0062

def XK_c : Nat := 0x0063

def XK_d : Nat := 0x0064

def XK_e : Nat := 0x0065

def XK_f : Nat := 0x0066

def XK_g : Nat := 0x0067

def XK_h : Nat := 0x0068

def XK_i : Nat := 0x0069

def XK_j : Nat := 0x006a

def XK_k : Nat := 0x006b

def XK_l : Nat := 0x006c

def XK_m : Nat := 0x006d

def XK_n : Nat := 0x006e

def XK_o : Nat := 0x006f

def XK_p : Nat := 0x0070

def XK_q : Nat := 0x0071

def XK_r : Nat := 0x0072

def XK_s : Nat := 0x0073

def XK_t : Nat := 0x0074

def XK_u : Nat := 0x0075

def XK_v : Nat := 0x0076

def XK_w : Nat := 0x0077

def XK_x : Nat := 0x0078

def XK_y : Nat := 0x0079

def XK_z : Nat := 0x007a

def XK_braceleft : Nat := 0x007b

def XK_bar : Nat := 0x007c

def XK_braceright : Nat := 0x007d

def XK_asciitilde : Nat := 0x007e

end keysyms

namespace masks

/-- X11 modifier masks from the `masks` module of `src/event_loop.rs`. -/
def ShiftMask : Nat := 1 <<< 0

def LockMask : Nat := 1 <<< 1

def ControlMask : Nat := 1 <<< 2

def Mod1Mask : Nat := 1 <<< 3

def Mod2Mask : Nat := 1 <<< 4

def Mod3Mask : Nat := 1 <<< 5

def Mod4Mask : Nat := 1 <<< 6

def Mod5Mask : Nat := 1 <<< 7

end masks

/-- Modifier mask accumulation from `map_key_event_to_fcitx`
(`src/event_loop.rs` lines 138-151): Shift, Control and Alt each
contribute one bit; the other crossterm modifiers are ignored. -/
def mod_state (m : KeyModifiers) : Nat :=
  let s0 : Nat := 0
  let s1 := if m.shift then s0 ||| masks.ShiftMask else s0
  let s2 := if m.control then s1 ||| masks.ControlMask else s1
  if m.alt then s2 ||| masks.Mod1Mask else s2

/-- Character arm of the `match` in `map_key_event_to_fcitx`
(`src/event_loop.rs` lines 157-191): the fixed table of printable ASCII
characters, falling through to the raw Unicode code point. -/
def char_keysym (c : Char) : Nat :=
  match c with
  | ' ' => keysyms.XK_space
  | '!' => keysyms.XK_exclam
  | '"' => keysyms.XK_quotedbl
  | '#' => keysyms.XK_numbersign
  | '$' => keysyms.XK_dollar
  | '%' => keysyms.XK_percent
  | '&' => keysyms.XK_ampersand
  | '\'' => keysyms.XK_apostrophe
  | '(' => keysyms.XK_parenleft
  | ')' => keysyms.XK_parenright
  | '*' => keysyms.XK_asterisk
  | '+' => keysyms.XK_plus
  | ',' => keysyms.XK_comma
  | '-' => keysyms.XK_minus
  | '.' => keysyms.XK_period
  | '/' => keysyms.XK_slash
  | '0' => keysyms.XK_0
  | '1' => keysyms.XK_1
  | '2' => keysyms.XK_2
  | '3' => keysyms.XK_3
  | '4' => keysyms.XK_4
  | '5' => keysyms.XK_5
  | '6' => keysyms.XK_6
  | '7' => keysyms.XK_7
  | '8' => keysyms.XK_8
  | '9' => keysyms.XK_9
  | ':' => keysyms.XK_colon
  | ';' => keysyms.XK_semicolon
  | '<' => keysyms.XK_less
  | '=' => keysyms.XK_equal
  | '>' => keysyms.XK_greater
  | '?' => keysyms.XK_question
  | '@' => keysyms.XK_at
  | 'A' => keysyms.XK_A
  | 'B' => keysyms.XK_B
  | 'C' => keysyms.XK_C
  | 'D' => keysyms.XK_D
  | 'E' => keysyms.XK_E
  | 'F' => keysyms.XK_F
  | 'G' => keysyms.XK_G
  | 'H' => keysyms.XK_H
  | 'I' => keysyms.XK_I
  | 'J' => keysyms.XK_J
  | 'K' => keysyms.XK_K
  | 'L' => keysyms.XK_L
  | 'M' => keysyms.XK_M
  | 'N' => keysyms.XK_N
  | 'O' => keysyms.XK_O
  | 'P' => keysyms.XK_P
  | 'Q' => keysyms.XK_Q
  | 'R' => keysyms.XK_R
  | 'S' => keysyms.XK_S
  | 'T' => keysyms.XK_T
  | 'U' => keysyms.XK_U
  | 'V' => keysyms.XK_V
  | 'W' => keysyms.XK_W
  | 'X' => keysyms.XK_X
  | 'Y' => keysyms.XK_Y
  | 'Z' => keysyms.XK_Z
  | '[' => keysyms.XK_bracketleft
  | '\\' => keysyms.XK_backslash
  | ']' => keysyms.XK_bracketright
  | '^' => keysyms.XK_asciicircum
  | '_' => keysyms.XK_underscore
  | '`' => keysyms.XK_grave
  | 'a' => keysyms.XK_a
  | 'b' => keysyms.XK_b
  | 'c' => keysyms.XK_c
  | 'd' => keysyms.XK_d
  | 'e' => keysyms.XK_e
  | 'f' => keysyms.XK_f
  | 'g' => keysyms.XK_g
  | 'h' => keysyms.XK_h
  | 'i' => keysyms.XK_i
  | 'j' => keysyms.XK_j
  | 'k' => keysyms.XK_k
  | 'l' => keysyms.XK_l
  | 'm' => keysyms.XK_m
  | 'n' => keysyms.XK_n
  | 'o' => keysyms.XK_o
  | 'p' => keysyms.XK_p
  | 'q' => keysyms.XK_q
  | 'r' => keysyms.XK_r
  | 's' => keysyms.XK_s
  | 't' => keysyms.XK_t
  | 'u' => keysyms.XK_u
  | 'v' => keysyms.XK_v
  | 'w' => keysyms.XK_w
  | 'x' => keysyms.XK_x
  | 'y' => keysyms.XK_y
  | 'z' => keysyms.XK_z
  | '{' => keysyms.XK_braceleft
  | '|' => keysyms.XK_bar
  | '}' => keysyms.XK_braceright
  | '~' => keysyms.XK_asciitilde
  | _ => c.toNat

/-- Legacy symbol table of the key mapper, as an optional map: `some` exactly
on the characters enumerated in the fixed `match` table of
`map_key_event_to_fcitx`, `none` for every character that falls through to
the raw-code-point default arm. -/
def legacySymbolTable (c : Char) : Option Nat :=
  match c with
  | ' ' => some keysyms.XK_space
  | '!' => some keysyms.XK_exclam
  | '"' => some keysyms.XK_quotedbl
  | '#' => some keysyms.XK_numbersign
  | '$' => some keysyms.XK_dollar
  | '%' => some keysyms.XK_percent
  | '&' => some keysyms.XK_ampersand
  | '\'' => some keysyms.XK_apostrophe
  | '(' => some keysyms.XK_parenleft
  | ')' => some keysyms.XK_parenright
  | '*' => some keysyms.XK_asterisk
  | '+' => some keysyms.XK_plus
  | ',' => some keysyms.XK_comma
  | '-' => some keysyms.XK_minus
  | '.' => some keysyms.XK_period
  | '/' => some keysyms.XK_slash
  | '0' => some keysyms.XK_0
  | '1' => some keysyms.XK_1
  | '2' => some keysyms.XK_2
  | '3' => some keysyms.XK_3
  | '4' => some keysyms.XK_4
  | '5' => some keysyms.XK_5
  | '6' => some keysyms.XK_6
  | '7' => some keysyms.XK_7
  | '8' => some keysyms.XK_8
  | '9' => some keysyms.XK_9
  | ':' => some keysyms.XK_colon
  | ';' => some keysyms.XK_semicolon
  | '<' => some keysyms.XK_less
  | '=' => some keysyms.XK_equal
  | '>' => some keysyms.XK_greater
  | '?' => some keysyms.XK_question
  | '@' => some keysyms.XK_at
  | 'A' => some keysyms.XK_A
  | 'B' => some keysyms.XK_B
  | 'C' => some keysyms.XK_C
  | 'D' => some keysyms.XK_D
  | 'E' => some keysyms.XK_E
  | 'F' => some keysyms.XK_F
  | 'G' => some keysyms.XK_G
  | 'H' => some keysyms.XK_H
  | 'I' => some keysyms.XK_I
  | 'J' => some keysyms.XK_J
  | 'K' => some keysyms.XK_K
  | 'L' => some keysyms.XK_L
  | 'M' => some keysyms.XK_M
  | 'N' => some keysyms.XK_N
  | 'O' => some keysyms.XK_O
  | 'P' => some keysyms.XK_P
  | 'Q' => some keysyms.XK_Q
  | 'R' => some keysyms.XK_R
  | 'S' => some keysyms.XK_S
  | 'T' => some keysyms.XK_T
  | 'U' => some keysyms.XK_U
  | 'V' => some keysyms.XK_V
  | 'W' => some keysyms.XK_W
  | 'X' => some keysyms.XK_X
  | 'Y' => some keysyms.XK_Y
  | 'Z' => some keysyms.XK_Z
  | '[' => some keysyms.XK_bracketleft
  | '\\' => some keysyms.XK_backslash
  | ']' => some keysyms.XK_bracketright
  | '^' => some keysyms.XK_asciicircum
  | '_' => some keysyms.XK_underscore
  | '`' => some keysyms.XK_grave
  | 'a' => some keysyms.XK_a
  | 'b' => some keysyms.XK_b
  | 'c' => some keysyms.XK_c
  | 'd' => some keysyms.XK_d
  | 'e' => some keysyms.XK_e
  | 'f' => some keysyms.XK_f
  | 'g' => some keysyms.XK_g
  | 'h' => some keysyms.XK_h
  | 'i' => some keysyms.XK_i
  | 'j' => some keysyms.XK_j
  | 'k' => some keysyms.XK_k
  | 'l' => some keysyms.XK_l
  | 'm' => some keysyms.XK_m
  | 'n' => some keysyms.XK_n
  | 'o' => some keysyms.XK_o
  | 'p' => some keysyms.XK_p
  | 'q' => some keysyms.XK_q
  | 'r' => some keysyms.XK_r
  | 's' => some keysyms.XK_s
  | 't' => some keysyms.XK_t
  | 'u' => some keysyms.XK_u
  | 'v' => some keysyms.XK_v
  | 'w' => some keysyms.XK_w
  | 'x' => some keysyms.XK_x
  | 'y' => some keysyms.XK_y
  | 'z' => some keysyms.XK_z
  | '{' => some keysyms.XK_braceleft
  | '|' => some keysyms.XK_bar
  | '}' => some keysyms.XK_braceright
  | '~' => some keysyms.XK_asciitilde
  | _ => none

/-- Key mapper from `src/event_loop.rs` (`map_key_event_to_fcitx`):
crossterm key event to fcitx `(keysym, keycode, state)` triple, `none` when
the event is not forwarded. The keycode is the placeholder `0`. -/
def map_key_event_to_fcitx (key_event : KeyEvent) : Option (Nat × Nat × Nat) :=
  let state := mod_state key_event.modifiers
  let keysym? : Option Nat :=
    match key_event.code with
    | .Char c => some (char_keysym c)
    | .Backspace => some keysyms.XK_BackSpace
    | .Enter => some keysyms.XK_Return
    | .Left => some keysyms.XK_Left
    | .Right => some keysyms.XK_Right
    | .Up => some keysyms.XK_Up
    | .Down => some keysyms.XK_Down
    | .Tab => some keysyms.XK_Tab
    | .Delete => some keysyms.XK_Delete
    | .Esc => some keysyms.XK_Escape
    | _ => none
  match keysym? with
  | none => none
  | some keysym => some (keysym, 0, state)

/-- Update messages from the IME, from the repository's `state.rs`
(`FcitxUpdate`), as constructed by `receive_updates` in `src/state.rs`:
a commit string, or a preedit text with a raw `i32` cursor offset. -/
inductive FcitxUpdate where
  | CommitString (s : String)
  | UpdatePreedit (text : String) (cursor_pos : Int)
  deriving DecidableEq

/-- One segment of formatted preedit text from the
`UpdateFormattedPreedit` D-Bus signal (`FormattedText` in `src/state.rs`). -/
structure FormattedText where
  text : String
  format : Int
  deriving DecidableEq

/-- Ingestion of the `UpdateFormattedPreedit` signal, from `receive_updates`
in `src/state.rs` (lines 150-159): the segment texts are concatenated and
the signal's `cursor_pos` (which the code itself annotates as a byte
position) is passed through unchanged. -/
def map_preedit_signal (segments : List FormattedText) (cursor_pos : Int) :
    FcitxUpdate :=
  FcitxUpdate.UpdatePreedit (String.join (segments.map (fun s => s.text)))
    cursor_pos

/-- Codepoint index corresponding to UTF-8 byte offset `b` in the character
list `s`: the number of leading characters whose total UTF-8 size is at
most `b`. This is the normalization the specification mandates for cursor
offsets reported in bytes (spec section 3 and section 9). -/
def char_index_of_byte_offset (s : List Char) (b : Nat) : Nat :=
  match s with
  | [] => 0
  | c :: rest =>
    if b < c.utf8Size then 0
    else 1 + char_index_of_byte_offset rest (b - c.utf8Size)

/-- Modelled from the spec: the Session aggregate (`AppState`) from the
repository's `state.rs`, which is not present under `src/` (the file named
`state.rs` there holds the fcitx client). Field names follow their uses in
`src/terminal.rs` (`preedit_string`, `preedit_cursor_pos`,
`commit_string`); the cursor is stored in codepoint units as a `usize`. -/
structure AppState where
  preedit_string : String
  preedit_cursor_pos : Nat
  commit_string : String
  deriving DecidableEq

/-- Modelled from the spec: `AppState::new` — the Session is created empty
at startup (spec section 3). -/
def AppState.new : AppState :=
  { preedit_string := "", preedit_cursor_pos := 0, commit_string := "" }

/-- Modelled from the spec: `AppState::apply_update` (`Session.applyUpdate`,
spec section 4.2), missing from `src/`. On `UpdatePreedit{text, cursor}`:
clear any pending commit, set the text, clamp the cursor into
`[0, codepointLength(text)]` and store the clamped value. On
`CommitString{text}`: replace the pending commit and clear the preedit. -/
def AppState.apply_update (s : AppState) (u : FcitxUpdate) : AppState :=
  match u with
  | .UpdatePreedit text cursor_pos =>
    { preedit_string := text,
      preedit_cursor_pos := min cursor_pos.toNat text.length,
      commit_string := "" }
  | .CommitString t =>
    { preedit_string := "", preedit_cursor_pos := 0, commit_string := t }

/-- Observable output of one `Terminal::render` call: the preedit text
printed underlined, the column the terminal cursor is left at, and the
commit text printed after the preedit. -/
structure RenderOut where
  preedit : String
  cursor_col : Nat
  commit : String
  deriving DecidableEq

/-- Renderer from `src/terminal.rs` (`Terminal::render`, lines 57-120),
reduced to its observable output. The state is taken by shared reference in
the source (`state: &AppState`) and is not modified. The cursor column is
`chars().take(preedit_cursor_pos).count()` when the preedit is nonempty
(the code prints the preedit then moves left by the saturating difference),
and the commit string is printed at that position, advancing the column by
its character count. -/
def Terminal.render (state : AppState) : RenderOut :=
  let width_to_cursor :=
    (state.preedit_string.toList.take state.preedit_cursor_pos).length
  let col0 : Nat := if state.preedit_string.isEmpty then 0 else width_to_cursor
  let col1 : Nat :=
    if state.commit_string.isEmpty then col0
    else col0 + state.commit_string.length
  { preedit := state.preedit_string, cursor_col := col1,
    commit := state.commit_string }

/-- IME-update branch of the dispatcher loop (`src/event_loop.rs` lines
297-304): apply the update to the Session, then render the new state. -/
def dispatch_update (s : AppState) (u : FcitxUpdate) : AppState × RenderOut :=
  let s1 := s.apply_update u
  (s1, Terminal.render s1)

/-- Record of one call to `FcitxClient::forward_key_event`
(`src/state.rs` lines 190-216): the arguments passed over the transport. -/
structure ForwardCall where
  keysym : Nat
  keycode : Nat
  state : Nat
  is_release : Bool
  deriving DecidableEq

/-- Environment of the event loop: the IME transport's response to each
`ProcessKeyEvent` call, abstracting the D-Bus round trip in
`forward_key_event`. -/
structure Env where
  fwd : Nat → Nat → Nat → Bool → Except FepError Bool

/-- Forwarding one key press (`FcitxClient::forward_key_event` in
`src/state.rs`): returns the transport's reply together with the record of
the call that was made. -/
def FcitxClient.forward_key_event (env : Env) (keysym keycode state : Nat)
    ( is_release : Bool) : Except FepError Bool × ForwardCall :=
  (env.fwd keysym keycode state is_release,
   { keysym := keysym, keycode := keycode, state := state,
     is_release := is_release })

/-- Quit-chord test from `src/event_loop.rs` line 249:
`key_event.code == KeyCode::Char('c') && modifiers.contains(CONTROL)`. -/
def is_quit_chord (k : KeyEvent) : Bool :=
  k.code = KeyCode.Char 'c' && k.modifiers.control

/-- One arrival at the `select!` of the dispatcher loop: an item from the
terminal key stream or from the IME update stream. `none` models stream
exhaustion (the stream's `next()` returning `None`). -/
inductive LoopEvent where
  | key (item : Option (Except FepError KeyEvent))
  | ime (item : Option (Except FepError FcitxUpdate))

/-- Result of `run_event_loop`: `done` is the `break`-then-`Ok(())` path,
`failed e` the `return Err(e)` path, and `pending` means the modelled
arrival sequence was exhausted while the loop was still running (the real
loop would keep waiting). -/
inductive LoopRes where
  | done
  | failed (e : FepError)
  | pending
  deriving DecidableEq

/-- Full outcome of a run of the dispatcher loop: result, final Session
state, the renders performed (in order) and the transport calls made
(in order). -/
structure LoopOut where
  res : LoopRes
  state : AppState
  renders : List RenderOut
  forwards : List ForwardCall
  deriving DecidableEq

/-- Dispatcher loop from `src/event_loop.rs` (`run_event_loop`, lines
238-324), driven by an explicit list of stream arrivals in place of
`select!`. Terminal branch: quit chord or stream end break the loop; a
stream error is returned; a mapped key is forwarded (a transport error is
returned, a `false` handled reply is ignored); an unmapped key is skipped.
IME branch: stream end returns the connection-lost error; a stream error is
returned; an update is applied to the Session and the new state rendered. -/
def run_event_loop (env : Env) : AppState → List LoopEvent → LoopOut
  | s, [] => { res := .pending, state := s, renders := [], forwards := [] }
  | s, .key none :: _ =>
    { res := .done, state := s, renders := [], forwards := [] }
  | s, .key (some (.error e)) :: _ =>
    { res := .failed e, state := s, renders := [], forwards := [] }
  | s, .key (some (.ok key_event)) :: rest =>
    if is_quit_chord key_event then
      { res := .done, state := s, renders := [], forwards := [] }
    else
      match map_key_event_to_fcitx key_event with
      | some (keysym, keycode, state) =>
        match FcitxClient.forward_key_event env keysym keycode state false with
        | (.ok _handled, call) =>
          let out := run_event_loop env s rest
          { out with forwards := call :: out.forwards }
        | (.error e, call) =>
          { res := .failed e, state := s, renders := [],
            forwards := [call] }
      | none => run_event_loop env s rest
  | s, .ime none :: _ =>
    { res := .failed
        (.FcitxConnection "Fcitx update stream unexpectedly ended"),
      state := s, renders := [], forwards := [] }
  | s, .ime (some (.error e)) :: _ =>
    { res := .failed e, state := s, renders := [], forwards := [] }
  | s, .ime (some (.ok update)) :: rest =>
    let s1 := s.apply_update update
    let r := Terminal.render s1
    let out := run_event_loop env s1 rest
    { out with renders := r :: out.renders }

/-- IME updates successfully delivered in an arrival sequence, in order. -/
def ime_updates_of (es : List LoopEvent) : List FcitxUpdate :=
  es.filterMap (fun e =>
    match e with
    | .ime (some (.ok u)) => some u
    | _ => none)

/-- Commit text carried by an update: the committed string for
`CommitString`, empty for `UpdatePreedit` (which clears the pending
commit). -/
def commit_text_of (u : FcitxUpdate) : String :=
  match u with
  | .CommitString t => t
  | .UpdatePreedit _ _ => ""

/-- An arrival that is a successfully delivered terminal key event other
than the quit chord, or a successfully delivered IME update — the setting
of the interleaving-safety property. -/
def plain_event (e : LoopEvent) : Bool :=
  match e with
  | .key (some (.ok k)) => !(is_quit_chord k)
  | .ime (some (.ok _)) => true
  | _ => false

/-- A concrete environment whose transport accepts every key. -/
def env0 : Env :=
  { fwd := fun _ _ _ _ => .ok true }

/-- Normal-exit discriminator on loop results: `true` exactly on the
`break`-then-`Ok(())` outcome. -/
def LoopRes.is_normal_exit : LoopRes → Bool
  | .done => true
  | _ => false

/-- Modifier sets used in concrete scenarios: no modifiers. -/
def noMods : KeyModifiers :=
  { shift := false, control := false, alt := false, superKey := false,
    hyperKey := false, metaKey := false }

/-- Modifier sets used in concrete scenarios: Control only. -/
def ctrlOnly : KeyModifiers :=
  { shift := false, control := true, alt := false, superKey := false,
    hyperKey := false, metaKey := false }

set_option maxHeartbeats 3200000 in
/-- The character table of the key mapper returns the raw code point of its
argument on every character it enumerates. -/
theorem char_keysym_toNat (c : Char) : char_keysym c = c.toNat := by
  unfold char_keysym
  split <;> rfl

set_option maxHeartbeats 3200000 in
/-- Every entry of the legacy symbol table is the ASCII code point of its
key. -/
theorem legacySymbolTable_some (c : Char) (v : Nat)
    (h : legacySymbolTable c = some v) : v = c.toNat := by
  unfold legacySymbolTable at h
  split at h <;> cases h <;> rfl

/-- The legacy symbol table collapses to the code point: looking up `c` and
defaulting to `c.toNat` always yields `c.toNat`. -/
theorem legacySymbolTable_getD (c : Char) :
    (legacySymbolTable c).getD c.toNat = c.toNat := by
  cases hl : legacySymbolTable c with
  | none => rfl
  | some v => simp [legacySymbolTable_some c v hl]

/-- An applied update always leaves the cursor at most the codepoint length
of the stored preedit text. -/
theorem apply_update_cursor_le (s : AppState) (u : FcitxUpdate) :
    (s.apply_update u).preedit_cursor_pos
      ≤ (s.apply_update u).preedit_string.length := by
  cases u with
  | UpdatePreedit text cursor_pos =>
    simpa [AppState.apply_update] using Nat.min_le_right cursor_pos.toNat text.length
  | CommitString t =>
    simp [AppState.apply_update]

/-- Every state in the scan trace of `apply_update` from a state satisfying
the cursor bound satisfies the cursor bound. -/
theorem scanl_cursor_le :
    ∀ (us : List FcitxUpdate) (s0 : AppState),
      s0.preedit_cursor_pos ≤ s0.preedit_string.length →
      ∀ s ∈ List.scanl AppState.apply_update s0 us,
        s.preedit_cursor_pos ≤ s.preedit_string.length := by
  intro us
  induction us with
  | nil =>
    intro s0 h0 s hs
    simp only [List.scanl, List.mem_singleton] at hs
    subst hs
    exact h0
  | cons u us ih =>
    intro s0 h0 s hs
    rw [List.scanl] at hs
    rcases List.mem_cons.mp hs with h | h
    · subst h
      exact h0
    · exact ih (s0.apply_update u) (apply_update_cursor_le s0 u) s h

/-- Claim C1: for every sequence of `apply_update` calls on the Session
starting from the empty state, with arbitrary payloads (including
out-of-range or negative cursor values), every state in the trace has
`0 <= cursor <= codepoint length of the preedit text`. -/
theorem claim_C1_cursor_clamp (us : List FcitxUpdate) (s : AppState)
    (h : s ∈ List.scanl AppState.apply_update AppState.new us) :
    0 ≤ s.preedit_cursor_pos ∧
      s.preedit_cursor_pos ≤ s.preedit_string.length :=
  ⟨Nat.zero_le _, scanl_cursor_le us AppState.new (Nat.le_refl 0) s h⟩

/-- Witness for claim C1: the trace of an oversized and a negative cursor
update contains the clamped state, which satisfies the bound. -/
theorem claim_C1_cursor_clamp_witness :
    (AppState.mk "ab" 2 "") ∈
        List.scanl AppState.apply_update AppState.new
          [FcitxUpdate.UpdatePreedit "ab" 99,
           FcitxUpdate.UpdatePreedit "xyz" (-5)] ∧
      (0 ≤ (AppState.mk "ab" 2 "").preedit_cursor_pos ∧
        (AppState.mk "ab" 2 "").preedit_cursor_pos
          ≤ (AppState.mk "ab" 2 "").preedit_string.length) :=
  ⟨by decide,
   claim_C1_cursor_clamp
     [FcitxUpdate.UpdatePreedit "ab" 99, FcitxUpdate.UpdatePreedit "xyz" (-5)]
     (AppState.mk "ab" 2 "") (by decide)⟩

/-- Claim C2: the `UpdateFormattedPreedit` signal's cursor offset — which
`receive_updates` itself annotates as a byte position — is passed through
unchanged rather than normalized to codepoints: on preedit `"あい"` with
byte offset `3` the ingested update carries `3`, the Session stores the
clamped `2`, and the renderer places the cursor at column `2`, while the
codepoint index of byte offset `3` is `1`. -/
theorem claim_C2_cursor_byte_offset_bug :
    map_preedit_signal [FormattedText.mk "あい" 0] 3
        = FcitxUpdate.UpdatePreedit "あい" 3 ∧
      char_index_of_byte_offset "あい".toList 3 = 1 ∧
      (AppState.new.apply_update
          (map_preedit_signal [FormattedText.mk "あい" 0] 3)).preedit_cursor_pos
        = 2 ∧
      (Terminal.render (AppState.new.apply_update
          (map_preedit_signal [FormattedText.mk "あい" 0] 3))).cursor_col
        = 2 ∧
      ¬ (2 : Nat) = 1 := by
  decide

/-- Claim C4: a character key event maps to the legacy-table symbol when
the character is in the fixed table and to its raw Unicode code point
otherwise, with placeholder keycode `0` and the modifier mask; the table
itself collapses to the ASCII code point on every entry. -/
theorem claim_C4_char_mapping (c : Char) (mods : KeyModifiers) :
    map_key_event_to_fcitx { code := KeyCode.Char c, modifiers := mods }
        = some ((legacySymbolTable c).getD c.toNat, 0, mod_state mods) ∧
      (legacySymbolTable c).getD c.toNat = c.toNat := by
  constructor
  · have h : map_key_event_to_fcitx { code := KeyCode.Char c, modifiers := mods }
        = some (char_keysym c, 0, mod_state mods) := rfl
    rw [h, char_keysym_toNat, legacySymbolTable_getD]
  · exact legacySymbolTable_getD c

/-- Claim C9: applying a `CommitString` update clears the preedit (text
empty, cursor `0`) and replaces the pending commit with the new text. -/
theorem claim_C9_commit_clears_preedit (s : AppState) (t : String) :
    (s.apply_update (FcitxUpdate.CommitString t)).preedit_string = "" ∧
      (s.apply_update (FcitxUpdate.CommitString t)).preedit_cursor_pos = 0 ∧
      (s.apply_update (FcitxUpdate.CommitString t)).commit_string = t :=
  ⟨rfl, rfl, rfl⟩

/-- Step shape of the loop on the quit chord: it breaks at once, ignoring
every later arrival. -/
theorem run_step_quit (env : Env) (s : AppState) (k : KeyEvent)
    (rest : List LoopEvent) (hq : is_quit_chord k = true) :
    run_event_loop env s (LoopEvent.key (some (Except.ok k)) :: rest)
      = { res := LoopRes.done, state := s, renders := [], forwards := [] } := by
  simp [run_event_loop, hq]

/-- Step shape of the loop on a key event the mapper does not forward: the
run continues unchanged. -/
theorem run_step_key_unmapped (env : Env) (s : AppState) (k : KeyEvent)
    (rest : List LoopEvent) (hq : is_quit_chord k = false)
    (hm : map_key_event_to_fcitx k = none) :
    run_event_loop env s (LoopEvent.key (some (Except.ok k)) :: rest)
      = run_event_loop env s rest := by
  simp [run_event_loop, hq, hm]

/-- Step shape of the loop on a mapped key the transport accepts: the call
is recorded and the run continues with the Session untouched. -/
theorem run_step_key_fwd_ok (env : Env) (s : AppState) (k : KeyEvent)
    (rest : List LoopEvent) (a b st : Nat) (v : Bool)
    (hq : is_quit_chord k = false)
    (hm : map_key_event_to_fcitx k = some (a, b, st))
    (hf : env.fwd a b st false = Except.ok v) :
    run_event_loop env s (LoopEvent.key (some (Except.ok k)) :: rest)
      = { res := (run_event_loop env s rest).res,
          state := (run_event_loop env s rest).state,
          renders := (run_event_loop env s rest).renders,
          forwards := ForwardCall.mk a b st false
            :: (run_event_loop env s rest).forwards } := by
  simp [run_event_loop, hq, hm, FcitxClient.forward_key_event, hf]

/-- Step shape of the loop on a mapped key the transport rejects with an
error: the error is propagated. -/
theorem run_step_key_fwd_err (env : Env) (s : AppState) (k : KeyEvent)
    (rest : List LoopEvent) (a b st : Nat) (e : FepError)
    (hq : is_quit_chord k = false)
    (hm : map_key_event_to_fcitx k = some (a, b, st))
    (hf : env.fwd a b st false = Except.error e) :
    run_event_loop env s (LoopEvent.key (some (Except.ok k)) :: rest)
      = { res := LoopRes.failed e, state := s, renders := [],
          forwards := [ForwardCall.mk a b st false] } := by
  simp [run_event_loop, hq, hm, FcitxClient.forward_key_event, hf]

/-- Step shape of the loop on a delivered IME update: the update is applied
and the new state rendered, then the run continues. -/
theorem run_step_ime_ok (env : Env) (s : AppState) (u : FcitxUpdate)
    (rest : List LoopEvent) :
    run_event_loop env s (LoopEvent.ime (some (Except.ok u)) :: rest)
      = { res := (run_event_loop env (s.apply_update u) rest).res,
          state := (run_event_loop env (s.apply_update u) rest).state,
          renders := Terminal.render (s.apply_update u)
            :: (run_event_loop env (s.apply_update u) rest).renders,
          forwards := (run_event_loop env (s.apply_update u) rest).forwards } :=
  rfl

/-- Render shows exactly the commit string held by the state. -/
theorem render_commit (st : AppState) :
    (Terminal.render st).commit = st.commit_string :=
  rfl

/-- After applying an update the pending commit is exactly the commit text
carried by that update (empty for preedit updates). -/
theorem apply_update_commit (s : AppState) (u : FcitxUpdate) :
    (s.apply_update u).commit_string = commit_text_of u := by
  cases u <;> rfl

/-- Claim C6: exhaustion of the IME update stream makes the dispatcher
return the distinct connection-lost transport error (`FcitxConnection`),
not a normal exit, while exhaustion of the terminal stream is the normal
(`break` then `Ok`) exit path. -/
theorem claim_C6_connection_lost (env : Env) (s : AppState)
    (rest : List LoopEvent) :
    run_event_loop env s (LoopEvent.ime none :: rest)
        = { res := LoopRes.failed
              (FepError.FcitxConnection "Fcitx update stream unexpectedly ended"),
            state := s, renders := [], forwards := [] } ∧
      (run_event_loop env s (LoopEvent.ime none :: rest)).res.is_normal_exit
        = false ∧
      run_event_loop env s (LoopEvent.key none :: rest)
        = { res := LoopRes.done, state := s, renders := [], forwards := [] } ∧
      (run_event_loop env s (LoopEvent.key none :: rest)).res.is_normal_exit
        = true :=
  ⟨rfl, rfl, rfl, rfl⟩

/-- Claim C8: the named keys Backspace, Tab, Enter, Escape, Left, Up,
Right, Down and Delete map to exactly the constants 0xff08, 0xff09,
0xff0d, 0xff1b, 0xff51, 0xff52, 0xff53, 0xff54 and 0xffff; every other
named key maps to `none`; and an unmapped key is skipped by the dispatcher
loop (not treated as an error): the run continues unchanged. -/
theorem claim_C8_named_keys (mods : KeyModifiers) (n m mo : Nat) (env : Env)
    (s : AppState) (rest : List LoopEvent) :
    map_key_event_to_fcitx { code := KeyCode.Backspace, modifiers := mods }
        = some (0xff08, 0, mod_state mods) ∧
      map_key_event_to_fcitx { code := KeyCode.Tab, modifiers := mods }
        = some (0xff09, 0, mod_state mods) ∧
      map_key_event_to_fcitx { code := KeyCode.Enter, modifiers := mods }
        = some (0xff0d, 0, mod_state mods) ∧
      map_key_event_to_fcitx { code := KeyCode.Esc, modifiers := mods }
        = some (0xff1b, 0, mod_state mods) ∧
      map_key_event_to_fcitx { code := KeyCode.Left, modifiers := mods }
        = some (0xff51, 0, mod_state mods) ∧
      map_key_event_to_fcitx { code := KeyCode.Up, modifiers := mods }
        = some (0xff52, 0, mod_state mods) ∧
      map_key_event_to_fcitx { code := KeyCode.Right, modifiers := mods }
        = some (0xff53, 0, mod_state mods) ∧
      map_key_event_to_fcitx { code := KeyCode.Down, modifiers := mods }
        = some (0xff54, 0, mod_state mods) ∧
      map_key_event_to_fcitx { code := KeyCode.Delete, modifiers := mods }
        = some (0xffff, 0, mod_state mods) ∧
      map_key_event_to_fcitx { code := KeyCode.Home, modifiers := mods }
        = none ∧
      map_key_event_to_fcitx { code := KeyCode.End, modifiers := mods }
        = none ∧
      map_key_event_to_fcitx { code := KeyCode.PageUp, modifiers := mods }
        = none ∧
      map_key_event_to_fcitx { code := KeyCode.PageDown, modifiers := mods }
        = none ∧
      map_key_event_to_fcitx { code := KeyCode.Insert, modifiers := mods }
        = none ∧
      map_key_event_to_fcitx { code := KeyCode.BackTab, modifiers := mods }
        = none ∧
      map_key_event_to_fcitx { code := KeyCode.Null, modifiers := mods }
        = none ∧
      map_key_event_to_fcitx { code := KeyCode.CapsLock, modifiers := mods }
        = none ∧
      map_key_event_to_fcitx { code := KeyCode.ScrollLock, modifiers := mods }
        = none ∧
      map_key_event_to_fcitx { code := KeyCode.NumLock, modifiers := mods }
        = none ∧
      map_key_event_to_fcitx { code := KeyCode.PrintScreen, modifiers := mods }
        = none ∧
      map_key_event_to_fcitx { code := KeyCode.Pause, modifiers := mods }
        = none ∧
      map_key_event_to_fcitx { code := KeyCode.Menu, modifiers := mods }
        = none ∧
      map_key_event_to_fcitx { code := KeyCode.KeypadBegin, modifiers := mods }
        = none ∧
      map_key_event_to_fcitx { code := KeyCode.F n, modifiers := mods }
        = none ∧
      map_key_event_to_fcitx { code := KeyCode.Media m, modifiers := mods }
        = none ∧
      map_key_event_to_fcitx { code := KeyCode.Modifier mo, modifiers := mods }
        = none ∧
      run_event_loop env s
          (LoopEvent.key (some (Except.ok
            { code := KeyCode.Home, modifiers := mods })) :: rest)
        = run_event_loop env s rest := by
  refine ⟨rfl, rfl, rfl, rfl, rfl, rfl, rfl, rfl, rfl, rfl, rfl, rfl, rfl,
    rfl, rfl, rfl, rfl, rfl, rfl, rfl, rfl, rfl, rfl, rfl, rfl, rfl, ?_⟩
  simp [run_event_loop, is_quit_chord, map_key_event_to_fcitx]

/-- Claim C10: every key event the dispatcher forwards over the transport
is sent as a key press: each recorded `forward_key_event` call of a run has
`is_release = false`. -/
theorem claim_C10_press_only (env : Env) (es : List LoopEvent) :
    ∀ (s : AppState) (c : ForwardCall),
      c ∈ (run_event_loop env s es).forwards → c.is_release = false := by
  induction es with
  | nil =>
    intro s c h
    simp [run_event_loop] at h
  | cons e rest ih =>
    intro s c h
    cases e with
    | key item =>
      rcases item with _ | (ev | k)
      · simp [run_event_loop] at h
      · simp [run_event_loop] at h
      · cases hq : is_quit_chord k with
        | true =>
          rw [run_step_quit env s k rest hq] at h
          simp at h
        | false =>
          rcases hm : map_key_event_to_fcitx k with _ | ⟨a, b, st⟩
          · rw [run_step_key_unmapped env s k rest hq hm] at h
            exact ih s c h
          · rcases hf : env.fwd a b st false with e2 | v
            · rw [run_step_key_fwd_err env s k rest a b st e2 hq hm hf] at h
              simp at h
              subst h
              rfl
            · rw [run_step_key_fwd_ok env s k rest a b st v hq hm hf] at h
              simp only [List.mem_cons] at h
              rcases h with h | h
              · subst h
                rfl
              · exact ih s c h
    | ime item =>
      rcases item with _ | (ev | u)
      · simp [run_event_loop] at h
      · simp [run_event_loop] at h
      · rw [run_step_ime_ok] at h
        exact ih (s.apply_update u) c h

/-- Witness for claim C10: forwarding the plain key `'a'` records exactly
one press call, and it has `is_release = false`. -/
theorem claim_C10_press_only_witness :
    ForwardCall.mk 0x61 0 0 false ∈
        (run_event_loop env0 AppState.new
          [LoopEvent.key (some (Except.ok
            { code := KeyCode.Char 'a', modifiers := noMods }))]).forwards ∧
      (ForwardCall.mk 0x61 0 0 false).is_release = false :=
  ⟨by decide,
   claim_C10_press_only env0
     [LoopEvent.key (some (Except.ok
       { code := KeyCode.Char 'a', modifiers := noMods }))]
     AppState.new (ForwardCall.mk 0x61 0 0 false) (by decide)⟩

/-- Claim C5 as stated is false: an interleaving in which the quit chord
arrives before an IME update leaves the final Session at its value at the
break, not at the result of applying all the IME updates of the
interleaving. -/
theorem claim_C5_quit_chord_counterexample :
    ¬ ((run_event_loop env0 AppState.new
          [LoopEvent.key (some (Except.ok
            { code := KeyCode.Char 'c', modifiers := ctrlOnly })),
           LoopEvent.ime (some (Except.ok (FcitxUpdate.UpdatePreedit "a" 1)))]).state
        = List.foldl AppState.apply_update AppState.new
            (ime_updates_of
              [LoopEvent.key (some (Except.ok
                { code := KeyCode.Char 'c', modifiers := ctrlOnly })),
               LoopEvent.ime (some (Except.ok
                 (FcitxUpdate.UpdatePreedit "a" 1)))])) := by
  decide

/-- Claim C5, amended: for an interleaving of successfully delivered
terminal key events, none of which is the quit chord, and IME updates, with
a transport that accepts every forwarded key, the terminal-source branch
never mutates the Session, so the final Session state equals applying only
the IME updates in their original relative order. -/
theorem claim_C5_interleaving_safety (env : Env) (es : List LoopEvent)
    (hfwd : ∀ a b st r, ∃ v, env.fwd a b st r = Except.ok v) :
    ∀ s : AppState, (∀ e ∈ es, plain_event e = true) →
      (run_event_loop env s es).state
        = List.foldl AppState.apply_update s (ime_updates_of es) := by
  induction es with
  | nil =>
    intro s hev
    simp [run_event_loop, ime_updates_of]
  | cons e rest ih =>
    intro s hev
    have he := hev e (List.mem_cons_self e rest)
    have hrest : ∀ e2 ∈ rest, plain_event e2 = true :=
      fun e2 h2 => hev e2 (List.mem_cons_of_mem e h2)
    cases e with
    | key item =>
      rcases item with _ | (ev | k)
      · simp [plain_event] at he
      · simp [plain_event] at he
      · have hq : is_quit_chord k = false := by
          simpa [plain_event] using he
        rcases hm : map_key_event_to_fcitx k with _ | ⟨a, b, st⟩
        · rw [run_step_key_unmapped env s k rest hq hm]
          simpa [ime_updates_of] using ih s hrest
        · rcases hfwd a b st false with ⟨v, hf⟩
          rw [run_step_key_fwd_ok env s k rest a b st v hq hm hf]
          simpa [ime_updates_of] using ih s hrest
    | ime item =>
      rcases item with _ | (ev | u)
      · simp [plain_event] at he
      · simp [plain_event] at he
      · rw [run_step_ime_ok]
        simpa [ime_updates_of] using ih (s.apply_update u) hrest

/-- Witness for the amended claim C5: a key event interleaved between two
IME updates does not alter the final Session, which equals the fold of the
two updates alone. -/
theorem claim_C5_interleaving_safety_witness :
    (run_event_loop env0 AppState.new
        [LoopEvent.ime (some (Except.ok (FcitxUpdate.UpdatePreedit "ab" 2))),
         LoopEvent.key (some (Except.ok
           { code := KeyCode.Char 'x', modifiers := noMods })),
         LoopEvent.ime (some (Except.ok (FcitxUpdate.CommitString "AB")))]).state
      = List.foldl AppState.apply_update AppState.new
          (ime_updates_of
            [LoopEvent.ime (some (Except.ok (FcitxUpdate.UpdatePreedit "ab" 2))),
             LoopEvent.key (some (Except.ok
               { code := KeyCode.Char 'x', modifiers := noMods })),
             LoopEvent.ime (some (Except.ok (FcitxUpdate.CommitString "AB")))]) :=
  claim_C5_interleaving_safety env0
    [LoopEvent.ime (some (Except.ok (FcitxUpdate.UpdatePreedit "ab" 2))),
     LoopEvent.key (some (Except.ok
       { code := KeyCode.Char 'x', modifiers := noMods })),
     LoopEvent.ime (some (Except.ok (FcitxUpdate.CommitString "AB")))]
    (fun _ _ _ _ => ⟨true, rfl⟩) AppState.new (by decide)

/-- Claim C3 as stated is false: immediately after the dispatcher applies
`CommitString "AB"` and renders the Session, the rendered output shows the
commit, but the Session's pending commit is still `"AB"`, not empty —
`render` takes the state by shared reference and clears nothing. -/
theorem claim_C3_render_keeps_commit_counterexample :
    (dispatch_update AppState.new (FcitxUpdate.CommitString "AB")).2.commit
        = "AB" ∧
      ¬ (dispatch_update AppState.new
          (FcitxUpdate.CommitString "AB")).1.commit_string = "" := by
  decide

/-- Claim C3, amended: `render` draws the preedit followed by the pending
commit text but leaves the Session unchanged; the pending commit is cleared
or replaced only by the next applied update. Since the dispatcher renders
exactly once after each applied update, the sequence of rendered commit
texts of a run equals, update for update, the commit text of each applied
IME update (empty for preedit updates), so a given commit is still rendered
at most once, at the update that set it. -/
theorem claim_C3_commit_rendered_once (env : Env) (es : List LoopEvent)
    (hfwd : ∀ a b st r, ∃ v, env.fwd a b st r = Except.ok v) :
    ∀ s : AppState, (∀ e ∈ es, plain_event e = true) →
      ((run_event_loop env s es).renders).map (fun r => r.commit)
        = (ime_updates_of es).map commit_text_of := by
  induction es with
  | nil =>
    intro s hev
    simp [run_event_loop, ime_updates_of]
  | cons e rest ih =>
    intro s hev
    have he := hev e (List.mem_cons_self e rest)
    have hrest : ∀ e2 ∈ rest, plain_event e2 = true :=
      fun e2 h2 => hev e2 (List.mem_cons_of_mem e h2)
    cases e with
    | key item =>
      rcases item with _ | (ev | k)
      · simp [plain_event] at he
      · simp [plain_event] at he
      · have hq : is_quit_chord k = false := by
          simpa [plain_event] using he
        rcases hm : map_key_event_to_fcitx k with _ | ⟨a, b, st⟩
        · rw [run_step_key_unmapped env s k rest hq hm]
          simpa [ime_updates_of] using ih s hrest
        · rcases hfwd a b st false with ⟨v, hf⟩
          rw [run_step_key_fwd_ok env s k rest a b st v hq hm hf]
          simpa [ime_updates_of] using ih s hrest
    | ime item =>
      rcases item with _ | (ev | u)
      · simp [plain_event] at he
      · simp [plain_event] at he
      · rw [run_step_ime_ok]
        simp only [ime_updates_of, List.filterMap_cons]
        simp only [List.map_cons, render_commit, apply_update_commit]
        rw [ih (s.apply_update u) hrest]
        rfl

/-- Witness for the amended claim C3: a preedit update followed by a commit
renders the commit text exactly once, at the commit update. -/
theorem claim_C3_commit_rendered_once_witness :
    ((run_event_loop env0 AppState.new
        [LoopEvent.ime (some (Except.ok (FcitxUpdate.UpdatePreedit "ab" 2))),
         LoopEvent.ime (some (Except.ok
           (FcitxUpdate.CommitString "AB")))]).renders).map (fun r => r.commit)
      = (ime_updates_of
          [LoopEvent.ime (some (Except.ok (FcitxUpdate.UpdatePreedit "ab" 2))),
           LoopEvent.ime (some (Except.ok
             (FcitxUpdate.CommitString "AB")))]).map commit_text_of :=
  claim_C3_commit_rendered_once env0
    [LoopEvent.ime (some (Except.ok (FcitxUpdate.UpdatePreedit "ab" 2))),
     LoopEvent.ime (some (Except.ok (FcitxUpdate.CommitString "AB")))]
    (fun _ _ _ _ => ⟨true, rfl⟩) AppState.new (by decide)

/-- Claim C7: whenever a run of the dispatcher loop ends with the non-error
result, the exit happened at a quit-chord key event or at exhaustion of the
terminal key stream, and every arrival after that event was ignored (the
run equals the run cut at the exit event); every other exit carries an
error or leaves the loop still running. -/
theorem claim_C7_normal_exit_only (env : Env) (es : List LoopEvent) :
    ∀ s : AppState, (run_event_loop env s es).res = LoopRes.done →
      ∃ pre e rest, es = pre ++ e :: rest ∧
        ((∃ k, e = LoopEvent.key (some (Except.ok k)) ∧ is_quit_chord k = true)
          ∨ e = LoopEvent.key none) ∧
        run_event_loop env s es = run_event_loop env s (pre ++ [e]) := by
  induction es with
  | nil =>
    intro s h
    simp [run_event_loop] at h
  | cons e rest ih =>
    intro s h
    cases e with
    | key item =>
      rcases item with _ | (ev | k)
      · exact ⟨[], LoopEvent.key none, rest, rfl, Or.inr rfl, rfl⟩
      · simp [run_event_loop] at h
      · cases hq : is_quit_chord k with
        | true =>
          refine ⟨[], LoopEvent.key (some (Except.ok k)), rest, rfl,
            Or.inl ⟨k, rfl, hq⟩, ?_⟩
          simp only [List.nil_append]
          rw [run_step_quit env s k rest hq, run_step_quit env s k [] hq]
        | false =>
          rcases hm : map_key_event_to_fcitx k with _ | ⟨a, b, st⟩
          · rw [run_step_key_unmapped env s k rest hq hm] at h
            rcases ih s h with ⟨pre, e2, rest2, heq, hkind, hrun⟩
            refine ⟨LoopEvent.key (some (Except.ok k)) :: pre, e2, rest2,
              by rw [heq]; rfl, hkind, ?_⟩
            rw [List.cons_append,
              run_step_key_unmapped env s k rest hq hm,
              run_step_key_unmapped env s k (pre ++ [e2]) hq hm, hrun]
          · rcases hf : env.fwd a b st false with e3 | v
            · rw [run_step_key_fwd_err env s k rest a b st e3 hq hm hf] at h
              simp at h
            · rw [run_step_key_fwd_ok env s k rest a b st v hq hm hf] at h
              rcases ih s h with ⟨pre, e2, rest2, heq, hkind, hrun⟩
              refine ⟨LoopEvent.key (some (Except.ok k)) :: pre, e2, rest2,
                by rw [heq]; rfl, hkind, ?_⟩
              rw [List.cons_append,
                run_step_key_fwd_ok env s k rest a b st v hq hm hf,
                run_step_key_fwd_ok env s k (pre ++ [e2]) a b st v hq hm hf,
                hrun]
    | ime item =>
      rcases item with _ | (ev | u)
      · simp [run_event_loop] at h
      · simp [run_event_loop] at h
      · rw [run_step_ime_ok] at h
        rcases ih (s.apply_update u) h with ⟨pre, e2, rest2, heq, hkind, hrun⟩
        refine ⟨LoopEvent.ime (some (Except.ok u)) :: pre, e2, rest2,
          by rw [heq]; rfl, hkind, ?_⟩
        rw [List.cons_append, run_step_ime_ok, run_step_ime_ok, hrun]

/-- Witness for claim C7: a run that exits on the quit chord, ignoring a
later IME-stream closure that would otherwise be a fatal error. -/
theorem claim_C7_normal_exit_only_witness :
    ∃ pre e rest,
      ([LoopEvent.key (some (Except.ok
          { code := KeyCode.Char 'c', modifiers := ctrlOnly })),
        LoopEvent.ime none] : List LoopEvent) = pre ++ e :: rest ∧
      ((∃ k, e = LoopEvent.key (some (Except.ok k)) ∧ is_quit_chord k = true)
        ∨ e = LoopEvent.key none) ∧
      run_event_loop env0 AppState.new
          [LoopEvent.key (some (Except.ok
            { code := KeyCode.Char 'c', modifiers := ctrlOnly })),
           LoopEvent.ime none]
        = run_event_loop env0 AppState.new (pre ++ [e]) :=
  claim_C7_normal_exit_only env0
    [LoopEvent.key (some (Except.ok
      { code := KeyCode.Char 'c', modifiers := ctrlOnly })),
     LoopEvent.ime none]
    AppState.new (by decide)

end Fep
